import Mathlib

/-!
Shallow embedding of the results-management module of the neuropredict
repository (results.py and posthoc.py), together with theorems checking the
natural-language specification against it.

Modelling conventions:
* Python dicts are insertion-ordered association lists; assignment replaces
  the value in place when the key is present and appends otherwise.
* Floating-point metric values are modelled as rationals; the NaN fill value
  of an unpopulated metric slot is modelled as the value none of Option.
* Fallible Python code is modelled in the Except monad over a PyError type
  naming the exception class raised; a ValueError additionally records the
  list of valid choices quoted in its message.
* Scoring functions map a pair of target lists to a rational score.
-/

/-- Lookup in an insertion-ordered association list (Python dict read). -/
def alookup {κ α : Type} [DecidableEq κ] : List (κ × α) → κ → Option α
  | [], _ => none
  | p :: rest, k => if p.1 = k then some p.2 else alookup rest k

/-- Assignment into an insertion-ordered association list (Python dict write):
replaces in place when the key is present, appends otherwise. -/
def aset {κ α : Type} [DecidableEq κ] : List (κ × α) → κ → α → List (κ × α)
  | [], k, v => [(k, v)]
  | p :: rest, k, v => if p.1 = k then (k, v) :: rest else p :: aset rest k v

/-- The keys of an association list, in insertion order. -/
def akeys {κ α : Type} (l : List (κ × α)) : List κ := l.map Prod.fst

/-- Extract the payload of a successful computation, with a fallback default. -/
def okD {ε α : Type} (dflt : α) : Except ε α → α
  | .ok a => a
  | .error _ => dflt

/-- Whether a computation succeeded. -/
def okB {ε α : Type} : Except ε α → Bool
  | .ok _ => true
  | .error _ => false

instance {ε α : Type} [DecidableEq ε] [DecidableEq α] :
    DecidableEq (Except ε α) := fun x y =>
  match x, y with
  | .ok a, .ok b =>
    if h : a = b then .isTrue (by rw [h])
    else .isFalse (by intro hh; cases hh; exact h rfl)
  | .error a, .error b =>
    if h : a = b then .isTrue (by rw [h])
    else .isFalse (by intro hh; cases hh; exact h rfl)
  | .ok _, .error _ => .isFalse (by intro hh; cases hh)
  | .error _, .ok _ => .isFalse (by intro hh; cases hh)

/-- One metric cell: a score, or none for the NaN fill value. -/
abbrev MVal := Option ℚ

/-- A scoring function, mapping (true targets, predicted targets) to a score. -/
abbrev ScoreFn := List ℚ → List ℚ → ℚ

/-- Per-metric storage: dataset id to the array of per-repetition cells. -/
abbrev DSMap := List (String × List MVal)

/-- The metric-value store: metric name to its per-dataset arrays. -/
abbrev MetricValMap := List (String × DSMap)

/-- A confusion matrix, as a class-by-class table of counts. -/
abbrev ConfMat := List (List ℚ)

/-- Python exception classes raised by the embedded code. A ValueError records
the list of valid choices quoted in its message, if any. -/
inductive PyError where
  | valueError (choices : List String)
  | keyError
  | indexError
  | typeError
  | attributeError
  | assertionError
  | notImplementedError
  | ioError
  deriving DecidableEq, Repr

/-- A Python number as passed for num_rep: a finite rational, or one of the
non-finite floating values. -/
inductive PyNum where
  | num (q : ℚ)
  | inf
  | negInf
  | nan
  deriving DecidableEq, Repr

/-- The comparison num_rep below 1, with Python float semantics: any
comparison against nan is false. -/
def pyLtOne : PyNum → Bool
  | .num q => decide (q < 1)
  | .inf => false
  | .negInf => true
  | .nan => false

/-- The numpy isfinite test. -/
def pyIsFinite : PyNum → Bool
  | .num _ => true
  | _ => false

/-- Truncation of a finite nonnegative number to an integer count
(the np.int64 conversion applied after validation). -/
def pyToNat : PyNum → Nat
  | .num q => q.floor.toNat
  | _ => 0

/-- The metric_set constructor argument: an iterable of scoring functions
(keyed by their source names), a string, or a non-iterable scalar. -/
inductive MetricSetArg where
  | iterArg (fns : List (String × ScoreFn))
  | strArg (s : String)
  | scalarArg

/-- Modelled from the spec: the utility is_iterable_but_not_str (defined in
the utils module, which is not part of the sources given) holds exactly for
iterables that are not strings. -/
def isIterableButNotStrM : MetricSetArg → Bool
  | .iterArg _ => true
  | _ => false

/-- The dataset_ids constructor argument: absent, a single non-iterable id,
or an iterable of ids. -/
inductive DatasetIdsArg where
  | noneArg
  | single (s : String)
  | iterArg (l : List String)

/-- The results store of the CVResults class: repetition count, registered
dataset ids, scoring-function registry, metric-value arrays, addition count,
attribute and metadata stores, and the recorded raw targets. -/
structure CVResults where
  num_rep : Nat
  _dataset_ids : List String
  metric_set : List (String × ScoreFn)
  metric_val : MetricValMap
  _count : Nat
  attr : List (String × List ((String × Nat) × ℚ))
  meta : List (String × ℚ)
  true_targets : List ((String × Nat) × List ℚ)
  predicted_targets : List ((String × Nat) × List ℚ)

/-- An all-empty store used only as the fallback default of okD. -/
def emptyStore : CVResults :=
  { num_rep := 0
    _dataset_ids := []
    metric_set := []
    metric_val := []
    _count := 0
    attr := []
    meta := []
    true_targets := []
    predicted_targets := [] }

instance : Inhabited CVResults := ⟨emptyStore⟩

/-- The dict comprehension of _init_new_metric: one all-NaN array of length
num_rep per registered dataset id. -/
def dictComp (dsids : List String) (nr : Nat) : DSMap :=
  dsids.foldl (fun acc d => aset acc d (List.replicate nr (none : MVal))) []

/-- The method _init_new_metric: registers an all-NaN array for every dataset
under the given metric name, unless the name is already present. -/
def initNewMetric (mv : MetricValMap) (dsids : List String) (nr : Nat)
    (name : String) : MetricValMap :=
  if (alookup mv name).isSome then mv else aset mv name (dictComp dsids nr)

/-- The CVResults constructor: validates num_rep, resolves dataset_ids,
builds the scoring registry from the metric iterable keyed by function name,
initializes all metric arrays, and computes the pretty-print widths (whose
max over an empty sequence raises ValueError). -/
def mkCVResults (ms : MetricSetArg) (nr : PyNum) (dsarg : DatasetIdsArg) :
    Except PyError CVResults :=
  if pyLtOne nr || !(pyIsFinite nr) then .error (.valueError []) else
  let nrep : Nat := pyToNat nr
  let dsids : List String :=
    match dsarg with
    | .noneArg => ["dataset1"]
    | .single s => [s]
    | .iterArg l => l
  match ms with
  | .iterArg fns =>
    let mset : List (String × ScoreFn) :=
      fns.foldl (fun acc p => aset acc p.1 p.2) []
    let mval : MetricValMap :=
      (akeys mset).foldl (fun acc n => initNewMetric acc dsids nrep n) []
    if mset.isEmpty || dsids.isEmpty then .error (.valueError []) else
    .ok { num_rep := nrep
          _dataset_ids := dsids
          metric_set := mset
          metric_val := mval
          _count := 0
          attr := []
          meta := []
          true_targets := []
          predicted_targets := [] }
  | _ => .error (.valueError [])

/-- One assignment metric_val of name of dataset_id of run_id, with the
Python failure modes: KeyError on a missing dict key and IndexError on an
out-of-range array index. -/
def setMetricCell (mv : MetricValMap) (name ds : String) (run : Nat)
    (v : MVal) : Except PyError MetricValMap :=
  match alookup mv name with
  | none => .error .keyError
  | some dm =>
    match alookup dm ds with
    | none => .error .keyError
    | some arr =>
      if run < arr.length then
        .ok (aset mv name (aset dm ds (arr.set run v)))
      else .error .indexError

/-- The loop of the add method over the scoring registry: computes each score
from (true targets, predicted) and stores it in the metric cell. -/
def addLoop (run : Nat) (ds : String) (tt pred : List ℚ) :
    MetricValMap → List (String × ScoreFn) → Except PyError MetricValMap
  | mv, [] => .ok mv
  | mv, (name, f) :: rest =>
    match setMetricCell mv name ds run (some (f tt pred)) with
    | .error e => .error e
    | .ok mv1 => addLoop run ds tt pred mv1 rest

/-- The add method: records the raw targets under the key (dataset_id,
run_id), scores every registered metric, and increments the count. -/
def CVResults.add (s : CVResults) (run_id : Nat) (dataset_id : String)
    (predicted true_tgts : List ℚ) : Except PyError CVResults :=
  let tt := aset s.true_targets (dataset_id, run_id) true_tgts
  let pt := aset s.predicted_targets (dataset_id, run_id) predicted
  match addLoop run_id dataset_id true_tgts predicted s.metric_val
      s.metric_set with
  | .error e => .error e
  | .ok mv1 =>
    .ok { s with
            true_targets := tt
            predicted_targets := pt
            metric_val := mv1
            _count := s._count + 1 }

/-- The add_metric method: lazily registers an unseen metric name with
all-NaN arrays, then sets one cell directly. -/
def CVResults.add_metric (s : CVResults) (run_id : Nat) (dataset_id name : String)
    (value : ℚ) : Except PyError CVResults :=
  match setMetricCell (initNewMetric s.metric_val s._dataset_ids s.num_rep name)
      name dataset_id run_id (some value) with
  | .error e => .error e
  | .ok mv1 => .ok { s with metric_val := mv1 }

/-- The add_attr method: free-form per-run, per-dataset key-value storage. -/
def CVResults.add_attr (s : CVResults) (run_id : Nat) (dataset_id name : String)
    (value : ℚ) : CVResults :=
  let cur := (alookup s.attr name).getD []
  { s with attr := aset s.attr name (aset cur (dataset_id, run_id) value) }

/-- The add_meta method: experiment-wide key-value storage. -/
def CVResults.add_meta (s : CVResults) (name : String) (value : ℚ) :
    CVResults :=
  { s with meta := aset s.meta name value }

/-- Lowercasing of one character, as the Python str.lower method acts on
the ASCII names used here. -/
def pyCharLower (c : Char) : Char :=
  if c.isUpper then Char.ofNat (c.toNat + 32) else c

/-- Lowercasing of a metric name, the Python str.lower call of to_array. -/
def pyLower (s : String) : String := String.mk (s.data.map pyCharLower)

/-- The fill loop of to_array: for each queried dataset id in order, reads
its array (KeyError if absent), writes it into the next matrix column
(IndexError past the allocated column count), requiring the array length to
match the row count (the broadcast ValueError otherwise). -/
def fillCols (m_data : DSMap) (nr numCols : Nat) :
    Nat → List String → Except PyError (List (List MVal))
  | _, [] => .ok []
  | i, d :: rest =>
    match alookup m_data d with
    | none => .error .keyError
    | some arr =>
      if numCols ≤ i then .error .indexError
      else if arr.length ≠ nr then .error (.valueError [])
      else (fillCols m_data nr numCols (i + 1) rest).map (fun tail => arr :: tail)

/-- Matrix assembly of to_array: the matrix allocated by np.empty has one
column per dataset key of the metric dict; the queried columns are filled in
order and the remaining columns stay uninitialized (modelled as none). -/
def buildCols (m_data : DSMap) (nr : Nat) (dsl : List String) :
    Except PyError (List (Option (List MVal)) × List String) :=
  (fillCols m_data nr m_data.length 0 dsl).map
    (fun filled =>
      (filled.map some ++
        List.replicate (m_data.length - dsl.length) (none : Option (List MVal)),
       dsl))

/-- The to_array method: lowercases the metric name, rejects an unregistered
metric with a ValueError listing the registered names, rejects (when ds_ids
is given) any unknown dataset id with a ValueError listing the registered
dataset ids, and consolidates the chosen columns into a matrix of num_rep
rows, returned together with the resolved dataset ordering. -/
def CVResults.to_array (s : CVResults) (metric : String)
    (ds_ids : Option (List String)) :
    Except PyError (List (Option (List MVal)) × List String) :=
  match alookup s.metric_val (pyLower metric) with
  | none => .error (.valueError (akeys s.metric_val))
  | some m_data =>
    match ds_ids with
    | none => buildCols m_data s.num_rep s._dataset_ids
    | some l =>
      match l.find? (fun d => !(decide (d ∈ s._dataset_ids))) with
      | some _ => .error (.valueError s._dataset_ids)
      | none => buildCols m_data s.num_rep l

/-- The abstract export method of the base class: its body is only a
docstring, so invoking it on an instance returns None and raises nothing. -/
def CVResults.exportResults (_s : CVResults) : Except PyError Unit := .ok ()

/-- The ClassifyCVResults store: the base store plus the per-run confusion
matrices and misclassified-samplet lists. -/
structure ClassifyCVResults where
  base : CVResults
  confusion_mat : List ((String × Nat) × ConfMat)
  misclfd_samplets : List ((String × Nat) × List String)

/-- The RegressCVResults store: the base store plus the per-run residual
vectors. -/
structure RegressCVResults where
  base : CVResults
  residuals : List ((String × Nat) × List ℚ)

/-- The ClassifyCVResults constructor on the path-free branch: the base
constructor followed by empty diagnostic stores. -/
def mkClassifyCVResults (ms : MetricSetArg) (nr : PyNum)
    (dsarg : DatasetIdsArg) : Except PyError ClassifyCVResults :=
  (mkCVResults ms nr dsarg).map
    (fun b => { base := b, confusion_mat := [], misclfd_samplets := [] })

/-- The RegressCVResults constructor on the path-free branch. -/
def mkRegressCVResults (ms : MetricSetArg) (nr : PyNum)
    (dsarg : DatasetIdsArg) : Except PyError RegressCVResults :=
  (mkCVResults ms nr dsarg).map (fun b => { base := b, residuals := [] })

/-- The classification add_diagnostics method: stores the confusion matrix
and the misclassified samplet ids under the key (dataset_id, run_id). -/
def ClassifyCVResults.add_diagnostics (c : ClassifyCVResults) (run_id : Nat)
    (dataset_id : String) (conf_mat : ConfMat) (misclfd_ids : List String) :
    ClassifyCVResults :=
  { c with
      confusion_mat := aset c.confusion_mat (dataset_id, run_id) conf_mat
      misclfd_samplets := aset c.misclfd_samplets (dataset_id, run_id) misclfd_ids }

/-- Elementwise numpy subtraction of two one-dimensional arrays, with the
broadcasting rules for length-one operands and the ValueError raised on any
other shape mismatch. -/
def npSub (a b : List ℚ) : Except PyError (List ℚ) :=
  if a.length = b.length then .ok (List.zipWith (fun x y => x - y) a b)
  else if b.length = 1 then .ok (a.map (fun x => x - b.headD 0))
  else if a.length = 1 then .ok (b.map (fun y => a.headD 0 - y))
  else .error (.valueError [])

/-- The regression add_diagnostics method: stores predicted minus true
targets as the residual vector under the key (dataset_id, run_id). -/
def RegressCVResults.add_diagnostics (r : RegressCVResults) (run_id : Nat)
    (dataset_id : String) (true_tgts predicted : List ℚ) :
    Except PyError RegressCVResults :=
  match npSub predicted true_tgts with
  | .error e => .error e
  | .ok res =>
    .ok { r with residuals := aset r.residuals (dataset_id, run_id) res }

/-- The overriding export method of ClassifyCVResults: raises
NotImplementedError unconditionally. -/
def ClassifyCVResults.exportResults (_c : ClassifyCVResults) :
    Except PyError Unit := .error .notImplementedError

/-- The stat_comparison function of the posthoc module: its body is the pass
statement, so it returns None and raises nothing. -/
def stat_comparison (_clf_results : ClassifyCVResults) :
    Except PyError Unit := .ok ()

/-- A Python value as serialized by pickle: primitives, lists, dicts with
string or composite (dataset id, run id) keys, function references stored by
name, and objects carrying named attributes. -/
inductive PyObj where
  | pyNone
  | pyRat (q : ℚ)
  | pyNaN
  | pyStr (s : String)
  | funcRef (name : String)
  | pyList (items : List PyObj)
  | pyDict (entries : List (String × PyObj))
  | pyTupleKeyed (entries : List ((String × Nat) × PyObj))
  | pyObjAttrs (attrs : List (String × PyObj))

/-- Pickled form of one metric array. -/
def encCells (cells : List MVal) : PyObj :=
  .pyList (cells.map (fun c => match c with
    | none => .pyNaN
    | some q => .pyRat q))

/-- Pickled form of the per-dataset arrays of one metric. -/
def encDSMap (m : DSMap) : PyObj :=
  .pyDict (m.map (fun p => (p.1, encCells p.2)))

/-- Pickled form of the metric-value store. -/
def encMetricVal (mv : MetricValMap) : PyObj :=
  .pyDict (mv.map (fun p => (p.1, encDSMap p.2)))

/-- Pickled form of the scoring registry: functions pickle by reference. -/
def encMetricSet (ms : List (String × ScoreFn)) : PyObj :=
  .pyDict (ms.map (fun p => (p.1, .funcRef p.1)))

/-- Pickled form of the attribute store. -/
def encAttr (a : List (String × List ((String × Nat) × ℚ))) : PyObj :=
  .pyDict (a.map (fun p =>
    (p.1, .pyTupleKeyed (p.2.map (fun q => (q.1, .pyRat q.2))))))

/-- Pickled form of the metadata store. -/
def encMeta (m : List (String × ℚ)) : PyObj :=
  .pyDict (m.map (fun p => (p.1, .pyRat p.2)))

/-- Pickled form of the confusion-matrix store. -/
def encConfMats (c : List ((String × Nat) × ConfMat)) : PyObj :=
  .pyTupleKeyed (c.map (fun p =>
    (p.1, .pyList (p.2.map (fun row => .pyList (row.map PyObj.pyRat))))))

/-- Pickled form of the misclassified-samplet store. -/
def encMisclfd (m : List ((String × Nat) × List String)) : PyObj :=
  .pyTupleKeyed (m.map (fun p => (p.1, .pyList (p.2.map PyObj.pyStr))))

/-- Pickled form of the residual store. -/
def encResiduals (r : List ((String × Nat) × List ℚ)) : PyObj :=
  .pyTupleKeyed (r.map (fun p => (p.1, .pyList (p.2.map PyObj.pyRat))))

/-- The ClassifyCVResults dump method: pickles the plain six-element list
[metric_set, metric_val, attr, meta, confusion_mat, misclfd_samplets] into a
timestamped file under out_dir; the value written is returned here and the
filesystem path is not modelled. -/
def ClassifyCVResults.dump (c : ClassifyCVResults) (_out_dir : String) :
    PyObj :=
  .pyList [encMetricSet c.base.metric_set, encMetricVal c.base.metric_val,
           encAttr c.base.attr, encMeta c.base.meta,
           encConfMats c.confusion_mat, encMisclfd c.misclfd_samplets]

/-- The RegressCVResults dump method: pickles the plain four-element list
[metric_set, metric_val, attr, meta]; the residuals are not saved. -/
def RegressCVResults.dump (r : RegressCVResults) (_out_dir : String) :
    PyObj :=
  .pyList [encMetricSet r.base.metric_set, encMetricVal r.base.metric_val,
           encAttr r.base.attr, encMeta r.base.meta]

/-- Python subscripting with a string key: a dict looks the key up, and any
other value raises TypeError. -/
def pySubscript (o : PyObj) (k : String) : Except PyError PyObj :=
  match o with
  | .pyDict entries =>
    match alookup entries k with
    | some v => .ok v
    | none => .error .keyError
  | _ => .error .typeError

/-- Python getattr: reads a named attribute from an object, raising
AttributeError when absent or when the value carries no attributes. -/
def pyGetAttr (o : PyObj) (name : String) : Except PyError PyObj :=
  match o with
  | .pyObjAttrs attrs =>
    match alookup attrs name with
    | some v => .ok v
    | none => .error .attributeError
  | _ => .error .attributeError

/-- Modelled from the spec: the variables-to-load list of the classification
class (defined in the config module, which is not part of the sources given)
enumerates metric definitions, metric values, attributes, metadata, and the
classification diagnostics. -/
def clfVariablesToLoad : List String :=
  ["metric_set", "metric_val", "attr", "meta",
   "confusion_mat", "misclfd_samplets"]

/-- Modelled from the spec: the variables-to-load list of the regression
class enumerates metric definitions, metric values, attributes, metadata,
and the regression diagnostics. -/
def regrVariablesToLoad : List String :=
  ["metric_set", "metric_val", "attr", "meta", "residuals"]

/-- The body of a load method applied to an already-unpickled snapshot
value: it subscripts the snapshot with the string key results and then reads
each listed variable off that object as an attribute, yielding the list of
restored assignments. The subsequent recomputation of the two pretty-print
widths is not modelled. -/
def loadBody (varsToLoad : List String) (snapshot : PyObj) :
    Except PyError (List (String × PyObj)) := do
  let results ← pySubscript snapshot "results"
  varsToLoad.mapM (fun v => do
    let x ← pyGetAttr results v
    pure (v, x))

/-- The ClassifyCVResults load method on an unpickled snapshot value. -/
def ClassifyCVResults.load (snapshot : PyObj) :
    Except PyError (List (String × PyObj)) :=
  loadBody clfVariablesToLoad snapshot

/-- The RegressCVResults load method on an unpickled snapshot value. -/
def RegressCVResults.load (snapshot : PyObj) :
    Except PyError (List (String × PyObj)) :=
  loadBody regrVariablesToLoad snapshot

/-- A four-dimensional confusion-matrix stack indexed as
class i, class j, repetition, dataset. -/
abbrev Arr4 := List (List (List (List ℚ)))

/-- The numpy mean of a one-dimensional array: the NaN result on an empty
input is modelled as none. -/
def npMeanQ (l : List ℚ) : Option ℚ :=
  if l.isEmpty then none else some (l.sum / (l.length : ℚ))

/-- The slice of one cell's repetition-by-dataset table at a dataset index. -/
def sliceRepsAt (cell : List (List ℚ)) (d : Nat) : List ℚ :=
  cell.map (fun byDs => byDs.getD d 0)

/-- The per-dataset average confusion matrix: the mean over the repetition
axis of the stack sliced at one dataset. -/
def avg_cfmat (a : Arr4) (d : Nat) : List (List (Option ℚ)) :=
  a.map (fun row => row.map (fun cell => npMeanQ (sliceRepsAt cell d)))

/-- NaN-propagating addition on optional values. -/
def optAdd : Option ℚ → Option ℚ → Option ℚ
  | some a, some b => some (a + b)
  | _, _ => none

/-- The row sum of one averaged row (the class size used for
normalization). -/
def rowSumO (row : List (Option ℚ)) : Option ℚ :=
  row.foldl optAdd (some 0)

/-- NaN-propagating division; division by zero yields the NaN-like none. -/
def optDiv : Option ℚ → Option ℚ → Option ℚ
  | some a, some b => if b = 0 then none else some (a / b)
  | _, _ => none

/-- Rounding to the nearest integer with ties to even, the rounding mode of
np.around. -/
def roundHalfEvenZ (q : ℚ) : ℤ :=
  let f := ⌊q⌋
  let r := q - (f : ℚ)
  if r < 1/2 then f
  else if 1/2 < r then f + 1
  else if f % 2 = 0 then f else f + 1

/-- The np.around call at three decimals, lifted over the NaN-like none. -/
def around3 (x : Option ℚ) : Option ℚ :=
  x.map (fun q => ((roundHalfEvenZ (q * 1000) : ℤ) : ℚ) / 1000)

/-- One row of the rendered matrix: each averaged entry divided by its row
sum, rounded at three decimals, and scaled to a percentage. -/
def normalizeRow (row : List (Option ℚ)) : List (Option ℚ) :=
  row.map (fun x => (around3 (optDiv x (rowSumO row))).map (fun q => 100 * q))

/-- The rendered percentage confusion matrix of one dataset. -/
def cfmatForDataset (a : Arr4) (d : Nat) : List (List (Option ℚ)) :=
  (avg_cfmat a d).map normalizeRow

/-- The dataset count of the stack, its fourth dimension. -/
def numDatasets (a : Arr4) : Nat :=
  (((a.headD []).headD []).headD []).length

/-- The display_confusion_matrix routine: asserts the first two dimensions
agree, then renders one percentage matrix per dataset; the heatmap drawing
and document output are not modelled, only the matrices displayed. -/
def display_confusion_matrix (a : Arr4) :
    Except PyError (List (List (List (Option ℚ)))) :=
  if (a.headD []).length ≠ a.length then .error .assertionError
  else .ok ((List.range (numDatasets a)).map (fun d => cfmatForDataset a d))

/-- The all-ones two-class, three-repetition, one-dataset stack of the
specification scenario. -/
def onesCfmat : Arr4 :=
  List.replicate 2 (List.replicate 2 (List.replicate 3 (List.replicate 1 (1 : ℚ))))

/-- A sample scoring function counting the positions where the two target
lists agree. -/
def demoScore : ScoreFn :=
  fun tt pred => (List.zipWith (fun a b => if a = b then (1 : ℚ) else 0) tt pred).sum

/-- A sample store: one metric named accuracy, three repetitions, datasets A
and B, built through the constructor. -/
def demoStore : CVResults :=
  okD emptyStore
    (mkCVResults (.iterArg [("accuracy", demoScore)]) (.num 3)
      (.iterArg ["A", "B"]))

/-- A sample classification store over the sample base store. -/
def demoClf : ClassifyCVResults :=
  { base := demoStore, confusion_mat := [], misclfd_samplets := [] }

/-- A sample regression store over the sample base store. -/
def demoRegr : RegressCVResults :=
  { base := demoStore, residuals := [] }

/-- A sample store whose only registered metric name contains an uppercase
character. -/
def demoStoreUpper : CVResults :=
  okD emptyStore
    (mkCVResults (.iterArg [("Accuracy", demoScore)]) (.num 2)
      (.iterArg ["A"]))

/-- The sample store after add_metric lazily registers a second metric whose
name is the uppercase variant of the first. -/
def demoStoreAliased : CVResults :=
  okD emptyStore (CVResults.add_metric demoStore 0 "A" "Accuracy" 5)

/-- Whether a string contains an uppercase character. -/
def hasUpper (s : String) : Bool := s.data.any Char.isUpper

/-- The shape invariant of a metric-value store: under every registered
metric, every registered dataset id carries an array of exactly nr cells. -/
abbrev ShapeInvMV (mv : MetricValMap) (dsids : List String) (nr : Nat) : Prop :=
  ∀ p ∈ mv, ∀ d ∈ dsids, (alookup p.2 d).map List.length = some nr

/-- The shape invariant of a whole store. -/
abbrev ShapeInvS (s : CVResults) : Prop :=
  ShapeInvMV s.metric_val s._dataset_ids s.num_rep

/-- Every cell of every metric array is still the NaN fill value. -/
abbrev AllNaNMV (mv : MetricValMap) : Prop :=
  ∀ p ∈ mv, ∀ q ∈ p.2, ∀ v ∈ q.2, v = (none : MVal)

/-- One metric cell of a store, read through the nested dictionaries. -/
def getCellMV (mv : MetricValMap) (name ds : String) (run : Nat) :
    Option MVal :=
  ((alookup mv name).bind (fun dm => alookup dm ds)).bind
    (fun arr => arr.get? run)

/-- One metric cell of a whole store. -/
def getCell (s : CVResults) (name ds : String) (run : Nat) : Option MVal :=
  getCellMV s.metric_val name ds run

lemma alookup_aset_self {κ α : Type} [DecidableEq κ] (l : List (κ × α))
    (k : κ) (v : α) : alookup (aset l k v) k = some v := by
  induction l with
  | nil => simp [aset, alookup]
  | cons p rest ih =>
    by_cases h : p.1 = k
    · simp [aset, alookup, h]
    · simp [aset, alookup, h, ih]

lemma alookup_aset_ne {κ α : Type} [DecidableEq κ] (l : List (κ × α))
    {m k : κ} (v : α) (h : m ≠ k) :
    alookup (aset l k v) m = alookup l m := by
  have hk : k ≠ m := Ne.symm h
  induction l with
  | nil => simp [aset, alookup, hk]
  | cons p rest ih =>
    by_cases hp : p.1 = k
    · simp [aset, alookup, hp, hk]
    · by_cases hm : p.1 = m
      · simp [aset, alookup, hp, hm, h]
      · simp [aset, alookup, hp, hm, ih]

lemma mem_aset {κ α : Type} [DecidableEq κ] {p : κ × α} {l : List (κ × α)}
    {k : κ} {v : α} (h : p ∈ aset l k v) : p ∈ l ∨ p = (k, v) := by
  induction l with
  | nil => simpa [aset] using h
  | cons q rest ih =>
    by_cases hq : q.1 = k
    · simp only [aset, if_pos hq] at h
      rcases List.mem_cons.mp h with h1 | h1
      · exact Or.inr h1
      · exact Or.inl (List.mem_cons_of_mem _ h1)
    · simp only [aset, if_neg hq] at h
      rcases List.mem_cons.mp h with h1 | h1
      · exact Or.inl (h1 ▸ List.mem_cons_self _ _)
      · rcases ih h1 with h2 | h2
        · exact Or.inl (List.mem_cons_of_mem _ h2)
        · exact Or.inr h2

lemma alookup_mem {κ α : Type} [DecidableEq κ] {l : List (κ × α)} {k : κ}
    {v : α} (h : alookup l k = some v) : (k, v) ∈ l := by
  induction l with
  | nil => simp [alookup] at h
  | cons p rest ih =>
    by_cases hp : p.1 = k
    · simp only [alookup, if_pos hp] at h
      have : p = (k, v) := by
        cases p; cases hp; cases h; rfl
      exact this ▸ List.mem_cons_self _ _
    · simp only [alookup, if_neg hp] at h
      exact List.mem_cons_of_mem _ (ih h)

lemma alookup_constFold {κ α : Type} [DecidableEq κ] (ds : List κ) (v : α)
    (d : κ) : ∀ init : List (κ × α),
    alookup (ds.foldl (fun acc x => aset acc x v) init) d =
      if d ∈ ds then some v else alookup init d := by
  induction ds with
  | nil => intro init; simp
  | cons x rest ih =>
    intro init
    simp only [List.foldl_cons]
    rw [ih]
    by_cases hd : d ∈ rest
    · simp [hd]
    · by_cases hx : d = x
      · subst hx
        simp [hd, alookup_aset_self]
      · simp [hd, hx, alookup_aset_ne _ _ hx]

lemma mem_constFold {κ α : Type} [DecidableEq κ] {p : κ × α} (ds : List κ)
    (v : α) : ∀ init : List (κ × α),
    p ∈ ds.foldl (fun acc x => aset acc x v) init → p ∈ init ∨ p.2 = v := by
  induction ds with
  | nil => intro init h; exact Or.inl h
  | cons x rest ih =>
    intro init h
    simp only [List.foldl_cons] at h
    rcases ih _ h with h1 | h1
    · rcases mem_aset h1 with h2 | h2
      · exact Or.inl h2
      · exact Or.inr (by rw [h2])
    · exact Or.inr h1

lemma mem_initFold {p : String × DSMap} (names : List String)
    (dsids : List String) (nr : Nat) : ∀ init : MetricValMap,
    p ∈ names.foldl (fun acc n => initNewMetric acc dsids nr n) init →
    p ∈ init ∨ p.2 = dictComp dsids nr := by
  induction names with
  | nil => intro init h; exact Or.inl h
  | cons x rest ih =>
    intro init h
    simp only [List.foldl_cons] at h
    rcases ih _ h with h1 | h1
    · unfold initNewMetric at h1
      by_cases hx : (alookup init x).isSome
      · rw [if_pos hx] at h1; exact Or.inl h1
      · rw [if_neg hx] at h1
        rcases mem_aset h1 with h2 | h2
        · exact Or.inl h2
        · exact Or.inr (by rw [h2])
    · exact Or.inr h1

lemma alookup_dictComp (dsids : List String) (nr : Nat) (d : String) :
    alookup (dictComp dsids nr) d =
      if d ∈ dsids then some (List.replicate nr (none : MVal)) else none := by
  unfold dictComp
  rw [alookup_constFold]
  simp [alookup]

lemma get?_set_self {α : Type} (l : List α) (i : Nat) (a : α)
    (h : i < l.length) : (l.set i a).get? i = some a := by
  induction l generalizing i with
  | nil => simp at h
  | cons x rest ih =>
    cases i with
    | zero => rfl
    | succ n =>
      simp only [List.set, List.get?]
      exact ih n (by simpa using h)

lemma setMetricCell_ok {mv : MetricValMap} {name ds : String} {run : Nat}
    {v : MVal} {dm : DSMap} {arr : List MVal}
    (h1 : alookup mv name = some dm) (h2 : alookup dm ds = some arr)
    (h3 : run < arr.length) :
    setMetricCell mv name ds run v =
      .ok (aset mv name (aset dm ds (arr.set run v))) := by
  unfold setMetricCell
  rw [h1]
  dsimp only
  rw [h2]
  dsimp only
  rw [if_pos h3]

lemma getCellMV_congr {mv mv' : MetricValMap} {name ds : String} {run : Nat}
    (h : alookup mv' name = alookup mv name) :
    getCellMV mv' name ds run = getCellMV mv name ds run := by
  unfold getCellMV
  rw [h]

lemma getCellMV_after_set {mv : MetricValMap} {name ds : String} {run : Nat}
    {v : MVal} {dm : DSMap} {arr : List MVal} (h3 : run < arr.length) :
    getCellMV (aset mv name (aset dm ds (arr.set run v))) name ds run =
      some v := by
  unfold getCellMV
  rw [alookup_aset_self]
  simp only [Option.some_bind]
  rw [alookup_aset_self]
  simp only [Option.some_bind]
  exact get?_set_self _ _ _ (by simpa using h3)

lemma setMetricCell_shape {mv mv' : MetricValMap} {dsids : List String}
    {nr : Nat} {name ds : String} {run : Nat} {v : MVal}
    (hinv : ShapeInvMV mv dsids nr)
    (h : setMetricCell mv name ds run v = .ok mv') :
    ShapeInvMV mv' dsids nr := by
  unfold setMetricCell at h
  cases h1 : alookup mv name with
  | none => rw [h1] at h; cases h
  | some dm =>
    rw [h1] at h
    dsimp only at h
    cases h2 : alookup dm ds with
    | none => rw [h2] at h; cases h
    | some arr =>
      rw [h2] at h
      dsimp only at h
      by_cases h3 : run < arr.length
      · rw [if_pos h3] at h
        injection h with h4
        subst h4
        intro p hp d hd
        rcases mem_aset hp with hmem | hnew
        · exact hinv p hmem d hd
        · subst hnew
          by_cases hds : d = ds
          · subst hds
            rw [alookup_aset_self]
            have := hinv (name, dm) (alookup_mem h1) d hd
            rw [h2] at this
            simp only [Option.map_some'] at this ⊢
            simpa [List.length_set] using this
          · rw [alookup_aset_ne _ _ hds]
            exact hinv (name, dm) (alookup_mem h1) d hd
      · rw [if_neg h3] at h
        cases h

lemma addLoop_shape {dsids : List String} {nr : Nat} (run : Nat) (ds : String)
    (tt pred : List ℚ) :
    ∀ (lst : List (String × ScoreFn)) (mv mv' : MetricValMap),
      ShapeInvMV mv dsids nr →
      addLoop run ds tt pred mv lst = .ok mv' →
      ShapeInvMV mv' dsids nr := by
  intro lst
  induction lst with
  | nil =>
    intro mv mv' hinv h
    injection h with h'
    subst h'
    exact hinv
  | cons p rest ih =>
    intro mv mv' hinv h
    obtain ⟨name, f⟩ := p
    simp only [addLoop] at h
    cases hset : setMetricCell mv name ds run (some (f tt pred)) with
    | error e => rw [hset] at h; cases h
    | ok mv1 =>
      rw [hset] at h
      exact ih mv1 mv' (setMetricCell_shape hinv hset) h

lemma addLoop_spec {nr : Nat} (run : Nat) (ds : String) (tt pred : List ℚ)
    (hrun : run < nr) :
    ∀ (lst : List (String × ScoreFn)) (mv : MetricValMap),
      (akeys lst).Nodup →
      (∀ p ∈ lst,
        ((alookup mv p.1).bind (fun dm => alookup dm ds)).map List.length =
          some nr) →
      ∃ mv', addLoop run ds tt pred mv lst = .ok mv' ∧
        (∀ name f, alookup lst name = some f →
          getCellMV mv' name ds run = some (some (f tt pred))) ∧
        (∀ m, m ∉ akeys lst → alookup mv' m = alookup mv m) := by
  intro lst
  induction lst with
  | nil =>
    intro mv _ _
    refine ⟨mv, rfl, ?_, fun m _ => rfl⟩
    intro name f hf
    simp [alookup] at hf
  | cons p rest ih =>
    intro mv hnd hreg
    obtain ⟨name0, f0⟩ := p
    have hhead := hreg (name0, f0) (List.mem_cons_self _ _)
    cases h1 : alookup mv name0 with
    | none => rw [h1] at hhead; simp at hhead
    | some dm =>
      rw [h1] at hhead
      simp only [Option.some_bind] at hhead
      cases h2 : alookup dm ds with
      | none => rw [h2] at hhead; simp at hhead
      | some arr =>
        rw [h2] at hhead
        simp only [Option.map_some'] at hhead
        have harr : arr.length = nr := by
          injection hhead
        have hrun' : run < arr.length := by omega
        have hset := setMetricCell_ok (v := some (f0 tt pred)) h1 h2 hrun'
        set mv1 := aset mv name0 (aset dm ds (arr.set run (some (f0 tt pred)))) with hmv1
        have hnd' : (akeys ((name0, f0) :: rest)).Nodup := hnd
        have hkeys : akeys ((name0, f0) :: rest) = name0 :: akeys rest := rfl
        rw [hkeys] at hnd'
        have hn0 : name0 ∉ akeys rest := (List.nodup_cons.mp hnd').1
        have hrest : (akeys rest).Nodup := (List.nodup_cons.mp hnd').2
        have hreg1 : ∀ p ∈ rest,
            ((alookup mv1 p.1).bind (fun dm => alookup dm ds)).map
              List.length = some nr := by
          intro p hp
          have hne : p.1 ≠ name0 := by
            intro heq
            exact hn0 (heq ▸ List.mem_map_of_mem Prod.fst hp)
          rw [hmv1, alookup_aset_ne _ _ hne]
          exact hreg p (List.mem_cons_of_mem _ hp)
        obtain ⟨mv', heq, hcell, hout⟩ := ih mv1 hrest hreg1
        refine ⟨mv', ?_, ?_, ?_⟩
        · simp only [addLoop]
          rw [hset]
          exact heq
        · intro name f hf
          by_cases hn : name0 = name
          · subst hn
            have hf0 : f = f0 := by
              simp only [alookup, if_pos rfl] at hf
              exact (Option.some.inj hf).symm
            subst hf0
            have hustep : alookup mv' name0 = alookup mv1 name0 :=
              hout name0 hn0
            rw [getCellMV_congr hustep, hmv1]
            exact getCellMV_after_set hrun'
          · have hf' : alookup rest name = some f := by
              simpa only [alookup, if_neg hn] using hf
            exact hcell name f hf'
        · intro m hm
          rw [hkeys] at hm
          have hm1 : m ≠ name0 := fun heq => hm (heq ▸ List.mem_cons_self _ _)
          have hm2 : m ∉ akeys rest := fun hin => hm (List.mem_cons_of_mem _ hin)
          rw [hout m hm2, hmv1, alookup_aset_ne _ _ hm1]

lemma fillCols_ok (m_data : DSMap) (nr numCols : Nat) :
    ∀ (l : List String) (i : Nat),
      (∀ d ∈ l, (alookup m_data d).map List.length = some nr) →
      i + l.length ≤ numCols →
      fillCols m_data nr numCols i l =
        .ok (l.map (fun d => (alookup m_data d).getD [])) := by
  intro l
  induction l with
  | nil => intro i _ _; rfl
  | cons d rest ih =>
    intro i hlen hbound
    have hd := hlen d (List.mem_cons_self _ _)
    cases h1 : alookup m_data d with
    | none => rw [h1] at hd; simp at hd
    | some arr =>
      rw [h1] at hd
      simp only [Option.map_some'] at hd
      have harr : arr.length = nr := by injection hd
      have hcons : (d :: rest).length = rest.length + 1 := rfl
      rw [hcons] at hbound
      simp only [fillCols]
      rw [h1]
      dsimp only
      rw [if_neg (by omega : ¬ numCols ≤ i), if_neg (by simp [harr])]
      rw [ih (i + 1) (fun x hx => hlen x (List.mem_cons_of_mem _ hx)) (by omega)]
      simp [Except.map, h1]

lemma initNewMetric_shape {mv : MetricValMap} {dsids : List String} {nr : Nat}
    (name : String) (hinv : ShapeInvMV mv dsids nr) :
    ShapeInvMV (initNewMetric mv dsids nr name) dsids nr := by
  unfold initNewMetric
  by_cases hx : (alookup mv name).isSome
  · rw [if_pos hx]; exact hinv
  · rw [if_neg hx]
    intro p hp d hd
    rcases mem_aset hp with h1 | h1
    · exact hinv p h1 d hd
    · subst h1
      dsimp only
      rw [alookup_dictComp, if_pos hd]
      simp

lemma mval_build_shape (names dsids : List String) (nrep : Nat) :
    ShapeInvMV
      (names.foldl (fun acc n => initNewMetric acc dsids nrep n) [])
      dsids nrep ∧
    AllNaNMV (names.foldl (fun acc n => initNewMetric acc dsids nrep n) []) := by
  constructor
  · intro p hp d hd
    rcases mem_initFold names dsids nrep [] hp with h1 | h1
    · cases h1
    · rw [h1, alookup_dictComp, if_pos hd]
      simp
  · intro p hp q hq v hv
    rcases mem_initFold names dsids nrep [] hp with h1 | h1
    · cases h1
    · rw [h1] at hq
      rcases mem_constFold dsids (List.replicate nrep (none : MVal)) [] hq with
        h2 | h2
      · cases h2
      · rw [h2] at hv
        exact List.eq_of_mem_replicate hv

lemma mk_ok_spec {ms : MetricSetArg} {nr : PyNum} {dsarg : DatasetIdsArg}
    {s0 : CVResults} (h : mkCVResults ms nr dsarg = .ok s0) :
    ShapeInvS s0 ∧ AllNaNMV s0.metric_val := by
  unfold mkCVResults at h
  by_cases hnr : (pyLtOne nr || !(pyIsFinite nr)) = true
  · rw [if_pos hnr] at h; cases h
  · rw [if_neg hnr] at h
    cases ms with
    | strArg s => cases h
    | scalarArg => cases h
    | iterArg fns =>
      dsimp only at h
      split at h
      · cases h
      · injection h with h4
        subst h4
        exact mval_build_shape _ _ _

/-- C1: the claim says dump followed by load restores every enumerated field
identically; in the code, dump pickles a plain list while load subscripts
the unpickled value with the string key results, so loading any snapshot
produced by dump raises TypeError before restoring anything, in both the
classification and the regression variant. -/
theorem C1_roundtrip_crashes (c : ClassifyCVResults) (r : RegressCVResults)
    (dir1 dir2 : String) :
    ClassifyCVResults.load (ClassifyCVResults.dump c dir1) =
      .error .typeError ∧
    RegressCVResults.load (RegressCVResults.dump r dir2) =
      .error .typeError :=
  ⟨rfl, rfl⟩

/-- C7 counterexample: the claim says the statistical comparison fails
unconditionally with a not-implemented error; invoked on a concrete store it
returns None instead of raising. -/
theorem C7_counterexample_stub_returns :
    stat_comparison demoClf ≠ Except.error PyError.notImplementedError := by
  decide

/-- C7 amended: the classification export raises NotImplementedError
unconditionally, while the statistical comparison and the base-class export
stub silently return None on every input. -/
theorem C7_unimplemented_stubs (c : ClassifyCVResults) (s : CVResults) :
    ClassifyCVResults.exportResults c = .error .notImplementedError ∧
    stat_comparison c = .ok () ∧
    CVResults.exportResults s = .ok () :=
  ⟨rfl, rfl, rfl⟩

/-- C8: the rendered matrix of a dataset is the repetition-averaged
confusion matrix with each row normalized by its row sum into percentages,
and on the all-ones two-class, three-repetition, one-dataset stack the
routine succeeds and renders the fifty-fifty matrix. -/
theorem C8_confusion_matrix_scenario :
    (∀ a d, cfmatForDataset a d = (avg_cfmat a d).map normalizeRow) ∧
    display_confusion_matrix onesCfmat =
      .ok [[[some 50, some 50], [some 50, some 50]]] := by
  refine ⟨fun _ _ => rfl, ?_⟩
  have h1 : npMeanQ (sliceRepsAt [[(1 : ℚ)], [1], [1]] 0) = some 1 := by
    norm_num [npMeanQ, sliceRepsAt]
  have h2 : rowSumO [some (1 : ℚ), some 1] = some 2 := by
    norm_num [rowSumO, optAdd]
  have h3 : optDiv (some (1 : ℚ)) (some 2) = some (1 / 2) := by
    norm_num [optDiv]
  have h4 : around3 (some ((1 : ℚ) / 2)) = some (1 / 2) := by
    have h500 : ((1 : ℚ) / 2 * 1000) = 500 := by norm_num
    simp only [around3, Option.map_some', h500, roundHalfEvenZ]
    norm_num
  have hmat : cfmatForDataset onesCfmat 0 =
      [[some 50, some 50], [some 50, some 50]] := by
    simp only [cfmatForDataset, onesCfmat, avg_cfmat, List.replicate,
      List.map, normalizeRow]
    rw [h1]
    rw [h2, h3, h4]
    simp only [Option.map_some']
    norm_num
  have hassert :
      ¬ ((onesCfmat.headD []).length ≠ onesCfmat.length) := by
    norm_num [onesCfmat, List.replicate]
  have hnum : numDatasets onesCfmat = 1 := by
    norm_num [numDatasets, onesCfmat, List.replicate]
  have hrange : List.range 1 = [0] := rfl
  unfold display_confusion_matrix
  rw [if_neg hassert, hnum, hrange]
  simp only [List.map_cons, List.map_nil, hmat]

/-- C6: constructing a store with a repetition count below one or not
finite, or with a metric set that is not an iterable other than a string,
fails immediately with a ValueError and produces no store. -/
theorem C6_constructor_rejects (ms : MetricSetArg) (nr : PyNum)
    (dsarg : DatasetIdsArg)
    (h : (pyLtOne nr || !(pyIsFinite nr)) = true ∨
      isIterableButNotStrM ms = false) :
    mkCVResults ms nr dsarg = .error (.valueError []) := by
  rcases h with h | h
  · unfold mkCVResults
    rw [if_pos h]
  · unfold mkCVResults
    by_cases hnr : (pyLtOne nr || !(pyIsFinite nr)) = true
    · rw [if_pos hnr]
    · rw [if_neg hnr]
      cases ms with
      | strArg s => rfl
      | scalarArg => rfl
      | iterArg fns => simp [isIterableButNotStrM] at h

/-- C6 witness: a string metric set and a NaN repetition count are each
rejected on a concrete call. -/
theorem C6_witness :
    mkCVResults (.strArg "roc_auc") (.num 10) .noneArg =
      .error (.valueError []) ∧
    mkCVResults (.iterArg [("accuracy", demoScore)]) .nan .noneArg =
      .error (.valueError []) :=
  ⟨C6_constructor_rejects _ _ _ (Or.inr rfl),
   C6_constructor_rejects _ _ _ (Or.inl rfl)⟩

/-- C10: add_diagnostics on the regression store records predicted minus
true targets, elementwise, as the residual vector under the key
(dataset id, run id), and changes nothing else. -/
theorem C10_residuals (r : RegressCVResults) (run : Nat) (ds : String)
    (tt pred : List ℚ) (hlen : pred.length = tt.length) :
    RegressCVResults.add_diagnostics r run ds tt pred =
      .ok { r with residuals := aset r.residuals (ds, run) (List.zipWith (fun x y => x - y) pred tt) } ∧
    alookup
        (okD r (RegressCVResults.add_diagnostics r run ds tt pred)).residuals
        (ds, run) = some (List.zipWith (fun x y => x - y) pred tt) ∧
    (∀ k, k ≠ (ds, run) →
      alookup
          (okD r (RegressCVResults.add_diagnostics r run ds tt pred)).residuals
          k = alookup r.residuals k) ∧
    (okD r (RegressCVResults.add_diagnostics r run ds tt pred)).base =
      r.base := by
  have heq : RegressCVResults.add_diagnostics r run ds tt pred =
      .ok { r with residuals := aset r.residuals (ds, run) (List.zipWith (fun x y => x - y) pred tt) } := by
    unfold RegressCVResults.add_diagnostics npSub
    rw [if_pos hlen]
  refine ⟨heq, ?_, ?_, ?_⟩
  · rw [heq]
    exact alookup_aset_self _ _ _
  · intro k hk
    rw [heq]
    exact alookup_aset_ne _ _ hk
  · rw [heq]
    rfl

/-- C10 witness: a concrete residual computation. -/
theorem C10_witness :
    alookup
        (okD demoRegr
          (RegressCVResults.add_diagnostics demoRegr 0 "A" [1, 2] [4, 6])).residuals
        ("A", 0) = some (List.zipWith (fun x y => x - y) [4, 6] [1, 2]) :=
  (C10_residuals demoRegr 0 "A" [1, 2] [4, 6] rfl).2.1

/-- C3: after add with a valid run and dataset pair on a well-formed store,
every registered metric cell at (name, dataset, run) holds the score of its
scoring function on (true targets, predicted), the raw target arrays are
recorded under the key (dataset, run), and the addition count grows by
one. -/
theorem C3_add_records (s : CVResults) (run : Nat) (ds : String)
    (pred tt : List ℚ)
    (hnd : (akeys s.metric_set).Nodup)
    (hreg : ∀ p ∈ s.metric_set,
      ((alookup s.metric_val p.1).bind (fun dm => alookup dm ds)).map
        List.length = some s.num_rep)
    (hrun : run < s.num_rep) :
    okB (CVResults.add s run ds pred tt) = true ∧
    (∀ name f, alookup s.metric_set name = some f →
      getCell (okD s (CVResults.add s run ds pred tt)) name ds run =
        some (some (f tt pred))) ∧
    alookup (okD s (CVResults.add s run ds pred tt)).true_targets (ds, run) =
      some tt ∧
    alookup (okD s (CVResults.add s run ds pred tt)).predicted_targets
        (ds, run) = some pred ∧
    (okD s (CVResults.add s run ds pred tt))._count = s._count + 1 := by
  obtain ⟨mv1, heq, hcell, _⟩ :=
    addLoop_spec run ds tt pred hrun s.metric_set s.metric_val hnd hreg
  have hadd : CVResults.add s run ds pred tt =
      .ok { s with
              true_targets := aset s.true_targets (ds, run) tt
              predicted_targets := aset s.predicted_targets (ds, run) pred
              metric_val := mv1
              _count := s._count + 1 } := by
    unfold CVResults.add
    rw [heq]
  rw [hadd]
  refine ⟨rfl, ?_, ?_, ?_, rfl⟩
  · intro name f hf
    exact hcell name f hf
  · exact alookup_aset_self _ _ _
  · exact alookup_aset_self _ _ _

/-- C3 witness: a concrete add call on the sample store scores the accuracy
metric, records the raw targets, and increments the count. -/
theorem C3_witness :
    okB (CVResults.add demoStore 1 "B" [1, 2, 3] [1, 0, 3]) = true ∧
    (∀ name f, alookup demoStore.metric_set name = some f →
      getCell (okD demoStore (CVResults.add demoStore 1 "B" [1, 2, 3] [1, 0, 3]))
          name "B" 1 = some (some (f [1, 0, 3] [1, 2, 3]))) ∧
    alookup
        (okD demoStore
          (CVResults.add demoStore 1 "B" [1, 2, 3] [1, 0, 3])).true_targets
        ("B", 1) = some [1, 0, 3] ∧
    alookup
        (okD demoStore
          (CVResults.add demoStore 1 "B" [1, 2, 3] [1, 0, 3])).predicted_targets
        ("B", 1) = some [1, 2, 3] ∧
    (okD demoStore (CVResults.add demoStore 1 "B" [1, 2, 3] [1, 0, 3]))._count =
      demoStore._count + 1 :=
  C3_add_records demoStore 1 "B" [1, 2, 3] [1, 0, 3] (by decide) (by decide)
    (by decide)

/-- C4: every successful construction yields a store in which every metric
carries one array of exactly num_rep cells per registered dataset, all cells
initially the NaN fill value; the shape invariant is preserved by add and by
add_metric, including its lazy registration of an unseen metric name, and
the remaining operations leave the metric arrays, or the whole base store,
untouched. -/
theorem C4_shape_invariant (ms : MetricSetArg) (nr : PyNum)
    (dsarg : DatasetIdsArg) (s : CVResults) (run : Nat) (ds name : String)
    (v : ℚ) (pred tt : List ℚ) (c : ClassifyCVResults)
    (r : RegressCVResults) (cm : ConfMat) (mis : List String) :
    (∀ s0, mkCVResults ms nr dsarg = .ok s0 →
      ShapeInvS s0 ∧ AllNaNMV s0.metric_val) ∧
    (ShapeInvS s → ShapeInvS (okD s (CVResults.add s run ds pred tt))) ∧
    (ShapeInvS s → ShapeInvS (okD s (CVResults.add_metric s run ds name v))) ∧
    (CVResults.add_attr s run ds name v).metric_val = s.metric_val ∧
    (CVResults.add_meta s name v).metric_val = s.metric_val ∧
    (ClassifyCVResults.add_diagnostics c run ds cm mis).base = c.base ∧
    (okD r (RegressCVResults.add_diagnostics r run ds tt pred)).base =
      r.base := by
  refine ⟨fun s0 h => mk_ok_spec h, ?_, ?_, rfl, rfl, rfl, ?_⟩
  · intro hinv
    cases hres : CVResults.add s run ds pred tt with
    | error e => exact hinv
    | ok s1 =>
      unfold CVResults.add at hres
      cases hl : addLoop run ds tt pred s.metric_val s.metric_set with
      | error e => rw [hl] at hres; cases hres
      | ok mv1 =>
        rw [hl] at hres
        injection hres with h4
        subst h4
        exact addLoop_shape run ds tt pred s.metric_set s.metric_val mv1
          hinv hl
  · intro hinv
    cases hres : CVResults.add_metric s run ds name v with
    | error e => exact hinv
    | ok s1 =>
      unfold CVResults.add_metric at hres
      cases hset : setMetricCell
          (initNewMetric s.metric_val s._dataset_ids s.num_rep name)
          name ds run (some v) with
      | error e => rw [hset] at hres; cases hres
      | ok mv1 =>
        rw [hset] at hres
        injection hres with h4
        subst h4
        exact setMetricCell_shape (initNewMetric_shape name hinv) hset
  · cases hres : RegressCVResults.add_diagnostics r run ds tt pred with
    | error e => rfl
    | ok r1 =>
      unfold RegressCVResults.add_diagnostics at hres
      cases hnp : npSub pred tt with
      | error e => rw [hnp] at hres; cases hres
      | ok res =>
        rw [hnp] at hres
        injection hres with h4
        subst h4
        rfl

/-- C4 witness: the sample store satisfies the invariant at construction and
after a concrete add and a concrete lazy add_metric. -/
theorem C4_witness :
    (ShapeInvS demoStore ∧ AllNaNMV demoStore.metric_val) ∧
    ShapeInvS (okD demoStore (CVResults.add demoStore 0 "A" [1] [1])) ∧
    ShapeInvS (okD demoStore (CVResults.add_metric demoStore 0 "A" "f1" 2)) :=
  ⟨(C4_shape_invariant (.iterArg [("accuracy", demoScore)]) (.num 3)
      (.iterArg ["A", "B"]) demoStore 0 "A" "f1" 2 [1] [1] demoClf demoRegr
      [] []).1 demoStore rfl,
   (C4_shape_invariant (.iterArg [("accuracy", demoScore)]) (.num 3)
      (.iterArg ["A", "B"]) demoStore 0 "A" "f1" 2 [1] [1] demoClf demoRegr
      [] []).2.1 (by decide),
   (C4_shape_invariant (.iterArg [("accuracy", demoScore)]) (.num 3)
      (.iterArg ["A", "B"]) demoStore 0 "A" "f1" 2 [1] [1] demoClf demoRegr
      [] []).2.2.1 (by decide)⟩

/-- C5 counterexample: on the sample store the name Accuracy is not a
registered metric name, yet to_array succeeds with it instead of raising,
because the lookup happens on the lowercased name. -/
theorem C5_counterexample_case_sensitivity :
    ("Accuracy" ∉ akeys demoStore.metric_val) ∧
    okB (CVResults.to_array demoStore "Accuracy" none) = true :=
  ⟨by decide, by decide⟩

/-- C5 amended: to_array raises a ValueError listing the registered metric
names whenever the lowercased metric argument is not registered, and, when
the metric resolves, a ValueError listing the registered dataset ids
whenever any entry of ds_ids is not a known dataset id. -/
theorem C5_invalid_args (s : CVResults) (metric : String)
    (dsopt : Option (List String)) (l : List String) :
    (alookup s.metric_val (pyLower metric) = none →
      CVResults.to_array s metric dsopt =
        .error (.valueError (akeys s.metric_val))) ∧
    ((alookup s.metric_val (pyLower metric)).isSome = true →
      (∃ d ∈ l, d ∉ s._dataset_ids) →
      CVResults.to_array s metric (some l) =
        .error (.valueError s._dataset_ids)) := by
  constructor
  · intro h
    unfold CVResults.to_array
    rw [h]
  · intro hsome hbad
    obtain ⟨mdata, hm⟩ := Option.isSome_iff_exists.mp hsome
    unfold CVResults.to_array
    rw [hm]
    dsimp only
    obtain ⟨d0, hd0l, hd0⟩ := hbad
    cases hfind : l.find? (fun d => !(decide (d ∈ s._dataset_ids))) with
    | none =>
      exfalso
      have hall := List.find?_eq_none.mp hfind d0 hd0l
      simp at hall
      exact hd0 hall
    | some x => rfl

/-- C5 witness: an unknown metric and an unknown dataset id each raise the
ValueError carrying the respective valid choices on the sample store. -/
theorem C5_witness :
    CVResults.to_array demoStore "zzz" none =
      .error (.valueError (akeys demoStore.metric_val)) ∧
    CVResults.to_array demoStore "accuracy" (some ["C"]) =
      .error (.valueError demoStore._dataset_ids) :=
  ⟨(C5_invalid_args demoStore "zzz" none ["C"]).1 (by decide),
   (C5_invalid_args demoStore "accuracy" (some ["C"]) ["C"]).2 (by decide)
     ⟨"C", by decide, by decide⟩⟩

/-- C9 counterexample: after add_metric lazily registers the name Accuracy
alongside the lowercase accuracy, to_array with the exact registered name
Accuracy succeeds instead of raising, returning the other metric's data. -/
theorem C9_counterexample_alias :
    hasUpper "Accuracy" = true ∧
    "Accuracy" ∈ akeys demoStoreAliased.metric_val ∧
    okB (CVResults.to_array demoStoreAliased "Accuracy" none) = true :=
  ⟨by decide, by decide, by decide⟩

/-- C9 amended: to_array lowercases the metric argument before lookup, so a
registered name containing an uppercase character raises the ValueError
whenever its lowercase form is not itself registered; its own values are
never retrievable under the exact name. -/
theorem C9_lowercase_lookup (s : CVResults) (name : String)
    (dsopt : Option (List String)) (_hup : hasUpper name = true)
    (_hmem : name ∈ akeys s.metric_val)
    (hlow : alookup s.metric_val (pyLower name) = none) :
    CVResults.to_array s name dsopt =
      .error (.valueError (akeys s.metric_val)) := by
  unfold CVResults.to_array
  rw [hlow]

/-- C9 witness: on a store whose only metric is named Accuracy, to_array
with the exact name Accuracy raises the ValueError listing the registered
names. -/
theorem C9_witness :
    CVResults.to_array demoStoreUpper "Accuracy" none =
      .error (.valueError (akeys demoStoreUpper.metric_val)) :=
  C9_lowercase_lookup demoStoreUpper "Accuracy" none (by decide) (by decide)
    (by decide)

lemma get?_eq_getD {α : Type} (dflt : α) :
    ∀ (l : List α) (i : Nat), i < l.length →
      l.get? i = some (l.getD i dflt) := by
  intro l
  induction l with
  | nil => intro i h; simp at h
  | cons x rest ih =>
    intro i h
    cases i with
    | zero => rfl
    | succ n => exact ih n (by simpa using h)

/-- C2 counterexample: querying the single dataset A on the two-dataset
sample store returns a matrix with two allocated columns, not one column per
selected dataset as the claim states, while the resolved ordering has one
entry. -/
theorem C2_counterexample_shape :
    (CVResults.to_array demoStore "accuracy" (some ["A"])).toOption.map
        (fun p => (p.1.length, p.2.length)) = some (2, 1) ∧
    (2 : Nat) ≠ 1 :=
  ⟨by decide, by decide⟩

/-- C2 amended: to_array allocates one column per dataset registered under
the metric, fills column i with the exact array of the i-th queried dataset
id for i below the query length, leaves the remaining columns uninitialized,
and returns the resolved dataset ordering; with no ds_ids it fills every
column using all datasets in registration order, and every filled column has
num_rep rows. -/
theorem C2_to_array_columns (s : CVResults) (metric : String) (mdata : DSMap)
    (l : List String)
    (hm : alookup s.metric_val (pyLower metric) = some mdata)
    (hlen : ∀ d ∈ s._dataset_ids,
      (alookup mdata d).map List.length = some s.num_rep)
    (hsub : ∀ d ∈ l, d ∈ s._dataset_ids)
    (hbound : l.length ≤ mdata.length)
    (hall : mdata.length = s._dataset_ids.length) :
    CVResults.to_array s metric (some l) =
      .ok (l.map (fun d => some ((alookup mdata d).getD [])) ++ List.replicate (mdata.length - l.length) (none : Option (List MVal)), l) ∧
    CVResults.to_array s metric none =
      .ok (s._dataset_ids.map (fun d => some ((alookup mdata d).getD [])), s._dataset_ids) ∧
    (∀ i, i < l.length →
      (l.map (fun d => some ((alookup mdata d).getD [])) ++ List.replicate (mdata.length - l.length) (none : Option (List MVal))).get? i = some (some ((alookup mdata (l.getD i "")).getD []))) ∧
    (∀ d ∈ l, ((alookup mdata d).getD []).length = s.num_rep) := by
  have hfill : ∀ (dsl : List String), (∀ d ∈ dsl, d ∈ s._dataset_ids) →
      dsl.length ≤ mdata.length →
      fillCols mdata s.num_rep mdata.length 0 dsl =
        .ok (dsl.map (fun d => (alookup mdata d).getD [])) :=
    fun dsl hs hb =>
      fillCols_ok mdata s.num_rep mdata.length dsl 0
        (fun d hd => hlen d (hs d hd)) (by omega)
  refine ⟨?_, ?_, ?_, ?_⟩
  · unfold CVResults.to_array
    rw [hm]
    dsimp only
    have hfind : l.find? (fun d => !(decide (d ∈ s._dataset_ids))) = none :=
      List.find?_eq_none.mpr (fun x hx => by simp [hsub x hx])
    rw [hfind]
    unfold buildCols
    rw [hfill l hsub hbound]
    simp [Except.map, List.map_map, Function.comp]
  · unfold CVResults.to_array
    rw [hm]
    dsimp only
    unfold buildCols
    rw [hfill s._dataset_ids (fun d hd => hd) (le_of_eq hall.symm)]
    have hz : mdata.length - s._dataset_ids.length = 0 := by omega
    rw [hz]
    simp [Except.map, List.map_map, Function.comp]
  · intro i hi
    rw [List.get?_append (by simpa using hi), List.get?_map,
      get?_eq_getD "" l i hi]
    rfl
  · intro d hd
    have hht := hlen d (hsub d hd)
    cases ha : alookup mdata d with
    | none => rw [ha] at hht; simp at hht
    | some arr =>
      rw [ha] at hht
      simp only [Option.map_some', Option.some.injEq] at hht
      simpa [ha] using hht

/-- C2 witness: querying datasets B then A on the sample store returns the
two filled columns in the requested order together with the requested
ordering. -/
theorem C2_witness :
    CVResults.to_array demoStore "accuracy" (some ["B", "A"]) =
      .ok (["B", "A"].map (fun d => some ((alookup [("A", List.replicate 3 (none : MVal)), ("B", List.replicate 3 (none : MVal))] d).getD [])) ++ List.replicate 0 (none : Option (List MVal)), ["B", "A"]) :=
  (C2_to_array_columns demoStore "accuracy"
    [("A", List.replicate 3 none), ("B", List.replicate 3 none)] ["B", "A"]
    (by decide) (by decide) (by decide) (by decide) (by decide)).1
